import Mathlib

/-!
Verification of the record join and assembly engine of `service_record_tool.py`.

The Python source is shallowly embedded: strings are Lean `String`s (lists of
code points, matching Python's code-point semantics for `len`, slicing and
iteration), CSV rows are association lists from column name to value, and the
workbook is represented by its ordered list of sheet titles plus the data
written into each generated sheet.  Python's regular expressions are embedded
as explicit recursive matchers; `\d` and `\w` are modelled on the character
ranges occurring in this tool's data (ASCII digits and letters, underscore,
hiragana, katakana and CJK ideographs).  The title-collision search, a
`while True` loop in the source, is embedded with an explicit fuel parameter:
`none` models divergence of the Python loop.
-/

namespace ServiceRecordTool

/-- Characters stripped by Python `str.strip()` (the whitespace characters
relevant to this tool's data, including the full-width space U+3000). -/
def isPySpace (c : Char) : Bool :=
  c == ' ' || c == '\t' || c == '\n' || c == '\r' || c == '\x0b' || c == '\x0c' ||
    c == '　'

/-- Drop leading Python whitespace. -/
def lstripChars (cs : List Char) : List Char := cs.dropWhile isPySpace

/-- Drop trailing Python whitespace. -/
def rstripChars (cs : List Char) : List Char := (cs.reverse.dropWhile isPySpace).reverse

/-- Drop surrounding Python whitespace. -/
def stripChars (cs : List Char) : List Char := rstripChars (lstripChars cs)

/-- Python `s.strip()`. -/
def pyStrip (s : String) : String := ⟨stripChars s.data⟩

/-- Python `s.rstrip()`. -/
def pyRStrip (s : String) : String := ⟨rstripChars s.data⟩

/-- Python source, `normalize_date`:
`return (s or "").strip().replace("-", "/")`. -/
def normalize_date (s : String) : String :=
  ⟨(stripChars s.data).map fun c => if c == '-' then '/' else c⟩

/-- One attempt of the regex `_(\d{6})` at the head of the character list:
an underscore followed by six ASCII digits (the first six digits of a longer
run also match, as with Python's unanchored `\d{6}`). -/
def monthTokenAt : List Char → Option String
  | '_' :: a :: b :: c :: d :: e :: f :: _ =>
    if a.isDigit && b.isDigit && c.isDigit && d.isDigit && e.isDigit && f.isDigit then
      some ⟨[a, b, c, d, e, f]⟩
    else
      none
  | _ => none

/-- Leftmost match of `re.search(r"_(\d{6})", name)`, scanning one position at
a time exactly as the regex engine does. -/
def searchMonthToken : List Char → Option String
  | [] => none
  | c :: rest =>
    match monthTokenAt (c :: rest) with
    | some t => some t
    | none => searchMonthToken rest

/-- Python source, `extract_yyyymm_from_filename` (the argument is the file
name, i.e. Python's `path.name`). -/
def extract_yyyymm_from_filename (name : String) : Option String :=
  searchMonthToken name.data

/-- Fixed message `MSG_MONTH_MISMATCH` from the source. -/
def MSG_MONTH_MISMATCH : String := "userCaseDailyとcaseDailyの日時が合いません。"

/-- Python source, `ensure_same_month`: raises `ValueError(MSG_MONTH_MISMATCH)`
iff both file names yield a token and the tokens differ. -/
def ensure_same_month (user_name case_name : String) : Except String Unit :=
  match extract_yyyymm_from_filename user_name, extract_yyyymm_from_filename case_name with
  | some u, some c => if u ≠ c then Except.error MSG_MONTH_MISMATCH else Except.ok ()
  | _, _ => Except.ok ()

/-- Spec-side predicate: the file name contains a 6-digit year-month token,
i.e. some position starts with an underscore followed by six digits. -/
def hasMonthToken (name : String) : Bool :=
  name.data.tails.any fun l => (monthTokenAt l).isSome

/-- Python source, `parse_hhmm`: `re.match(r"^(\d{1,2}):(\d{2})$", s.strip())`,
returning the hour/minute pair converted with `int`.  The anchored regex admits
exactly the shapes `d:dd` and `dd:dd` over ASCII digits. -/
def parse_hhmm (s : String) : Option (Nat × Nat) :=
  match stripChars s.data with
  | [h1, h2, ':', m1, m2] =>
    if h1.isDigit && h2.isDigit && m1.isDigit && m2.isDigit then
      some ((h1.toNat - '0'.toNat) * 10 + (h2.toNat - '0'.toNat),
        (m1.toNat - '0'.toNat) * 10 + (m2.toNat - '0'.toNat))
    else none
  | [h1, ':', m1, m2] =>
    if h1.isDigit && m1.isDigit && m2.isDigit then
      some (h1.toNat - '0'.toNat, (m1.toNat - '0'.toNat) * 10 + (m2.toNat - '0'.toNat))
    else none
  | _ => none

/-- Python's `f"{m:02d}"` for the minute values produced by `parse_hhmm`. -/
def pad2 (n : Nat) : String :=
  if n < 10 then "0" ++ toString n else toString n

/-- Python source, `format_time_jp`. -/
def format_time_jp (startS endS : String) : String :=
  match parse_hhmm startS, parse_hhmm endS with
  | some (sh, sm), some (eh, em) =>
    toString sh ++ "時" ++ pad2 sm ++ "分～" ++ toString eh ++ "時" ++ pad2 em ++ "分"
  | _, _ =>
    let s := pyStrip startS
    let e := pyStrip endS
    if s == "" && e == "" then "" else s ++ "～" ++ e

/-- The forbidden sheet-title characters of `safe_sheet_name`. -/
def forbiddenSheetChars : List Char := [':', '/', '\\', '?', '*', '[', ']']

/-- One step of the sequential `name.replace(c, "_")` loop (the seven
replacements are independent, so they act pointwise). -/
def replaceForbidden (c : Char) : Char :=
  if forbiddenSheetChars.contains c then '_' else c

/-- Python source, `safe_sheet_name`: replace forbidden characters by
underscore, then `strip()[:31]`. -/
def safe_sheet_name (name : String) : String :=
  ⟨(stripChars (name.data.map replaceForbidden)).take 31⟩

/-- Python `\w` (word character) as used by the `\b` boundaries in
`format_contact_text`, modelled on the character ranges occurring in this
tool's data: ASCII alphanumerics, underscore, hiragana, katakana (without the
middle dot U+30FB, which is punctuation), the prolonged sound mark U+30FC and
the common CJK ideographs. -/
def isWordChar (c : Char) : Bool :=
  c.isAlphanum || c == '_' ||
    (0x3041 ≤ c.toNat && c.toNat ≤ 0x3096) ||
    (0x30A1 ≤ c.toNat && c.toNat ≤ 0x30FA) ||
    c.toNat == 0x30FC ||
    (0x4E00 ≤ c.toNat && c.toNat ≤ 0x9FFF)

/-- Trailing `\b` of the time-token regex: the next character, if any, is not a
word character (the character before the boundary is always a digit here). -/
def noWordAhead : List Char → Bool
  | [] => true
  | c :: _ => !isWordChar c

/-- Python `re.split(r"(\b\d{1,2}:\d{2}\b)", text)`: the alternating list of
text segments and captured time tokens.  `pw` records whether the character
immediately before the current position is a word character (the leading `\b`
before a digit holds exactly when it is not); `acc` is the reversed text
segment accumulated so far.  At each position the engine first tries the
two-digit hour, then the one-digit hour, then advances one character. -/
def reSplitAux (pw : Bool) (acc : List Char) : List Char → List String
  | d1 :: d2 :: c :: m1 :: m2 :: rest =>
    if !pw && d1.isDigit && d2.isDigit && c == ':' && m1.isDigit && m2.isDigit &&
        noWordAhead rest then
      ⟨acc.reverse⟩ :: ⟨[d1, d2, ':', m1, m2]⟩ :: reSplitAux true [] rest
    else if !pw && d1.isDigit && d2 == ':' && c.isDigit && m1.isDigit && !isWordChar m2 then
      ⟨acc.reverse⟩ :: ⟨[d1, ':', c, m1]⟩ :: reSplitAux true [] (m2 :: rest)
    else
      reSplitAux (isWordChar d1) (d1 :: acc) (d2 :: c :: m1 :: m2 :: rest)
  | [d1, d2, c, m1] =>
    if !pw && d1.isDigit && d2 == ':' && c.isDigit && m1.isDigit then
      [⟨acc.reverse⟩, ⟨[d1, ':', c, m1]⟩, ""]
    else
      reSplitAux (isWordChar d1) (d1 :: acc) [d2, c, m1]
  | d1 :: rest =>
    reSplitAux (isWordChar d1) (d1 :: acc) rest
  | [] => [⟨acc.reverse⟩]

/-- Python `re.fullmatch(r"\b\d{1,2}:\d{2}\b", seg)`: on a whole string the two
boundaries sit next to digits at the ends, so they always hold, and the test
reduces to the shape `d:dd` or `dd:dd`. -/
def isFullToken (s : String) : Bool :=
  match s.data with
  | [a, b, c, d] => a.isDigit && b == ':' && c.isDigit && d.isDigit
  | [a, b, c, d, e] => a.isDigit && b.isDigit && c == ':' && d.isDigit && e.isDigit
  | _ => false

/-- The 4-character ellipsis glyph appended on truncation. -/
def ELLIPSIS : String := "・・・・"

/-- The cap-and-ellipsis rule written twice in `format_contact_text`:
`(x[:30] + "・・・・") if len(x) > 30 else x`. -/
def cap30 (msg : String) : String :=
  if msg.length > 30 then ⟨msg.data.take 30⟩ ++ ELLIPSIS else msg

/-- The `while i < len(parts)` loop of `format_contact_text`: a segment that
fully matches the time-token pattern consumes the following segment as its
message (empty when past the end) and emits `f"{t} {disp}".rstrip()`;
any other segment is skipped. -/
def renderLines : List String → List String
  | [] => []
  | seg :: rest =>
    if isFullToken seg then
      match rest with
      | [] => [pyRStrip (seg ++ " ")]
      | m :: rest2 => pyRStrip (seg ++ " " ++ cap30 (pyStrip m)) :: renderLines rest2
    else renderLines rest

/-- Python source, `format_contact_text`. -/
def format_contact_text (raw : String) : String :=
  let text := pyStrip raw
  if text == "" then ""
  else
    let parts := reSplitAux false [] text.data
    if parts.length == 1 then cap30 text
    else String.intercalate "\n" ((renderLines parts).filter fun l => l != "")

/-- Python's substring operator `pat in s`. -/
def strContains (s pat : String) : Bool :=
  s.data.tails.any fun t => pat.data.isPrefixOf t

/-- Python source, `normalize_method`. -/
def normalize_method (raw : String) : String :=
  if strContains raw "在宅" && !strContains raw "通所" then "利用者宅" else "事業所"

/-- A CSV row as produced by `read_csv_dicts`: an association list from column
name to value (Python dict keys are unique, so the first binding decides). -/
abbrev Row := List (String × String)

/-- Python `r.get(k, "")` (and `r.get(k) or ""`: a missing key yields `""`). -/
def rget (r : Row) (k : String) : String :=
  match r.find? fun p => p.1 == k with
  | some p => p.2
  | none => ""

/-- Python source, `pick_date_column`.  `none` models the `IndexError` that
`keys[0]` would raise; on the guarded call sites `daily_rows` is non-empty. -/
def pick_date_column (daily_rows : List Row) : Option String :=
  match daily_rows with
  | [] => none
  | r :: _ =>
    let keys := r.map Prod.fst
    match ["日付", "年月日", "支援実施日"].find? (fun c => keys.contains c) with
    | some c => some c
    | none => keys.head?

/-- The candidate scan of `pick_daily_note`. -/
def noteLookup (daily : Row) : List String → String
  | [] => ""
  | c :: cs =>
    let v := pyStrip (rget daily c)
    if v != "" then v else noteLookup daily cs

/-- Python source, `pick_daily_note`. -/
def pick_daily_note (daily : Row) : String :=
  noteLookup daily ["備考", "備考欄", "本人との連絡", "連絡", "連絡事項"]

/-- The local `add` closure of `build_program`. -/
def progAdd (out : List String) (p detail : String) : List String :=
  let p2 := pyStrip p
  let d2 := pyStrip detail
  if p2 != "" || d2 != "" then
    out ++ [p2 ++ (if p2 != "" && d2 != "" then "\n" ++ d2 else d2)]
  else out

/-- Python source, `build_program`. -/
def build_program (d : Row) : String :=
  let o1 := progAdd [] (rget d "午前のプログラム") (rget d "午前のプログラム詳細")
  let o2 := progAdd o1 (rget d "午後1のプログラム") (rget d "午後1のプログラム詳細")
  let o3 := progAdd o2 (rget d "午後2のプログラム") (rget d "午後2のプログラム詳細")
  let o4 := progAdd o3 (rget d "終日のプログラム") (rget d "終日のプログラム詳細")
  String.intercalate "\n" o4

/-- The inline temperature rendering of `generate`
(`"未検温" if temp == "" else f"{temp}℃"` after stripping). -/
def temp_display (raw : String) : String :=
  let t := pyStrip raw
  if t == "" then "未検温" else t ++ "℃"

/-- Source constant `ATTEND_VALUE`. -/
def ATTEND_VALUE : String := "出席"

/-- Source constant `ABSENT_SKIP_VALUE`. -/
def ABSENT_SKIP_VALUE : String := "欠席時対応"

/-- Source constant `TEMPLATE_SHEET`. -/
def TEMPLATE_SHEET : String := "Format"

/-- Source constant `MSG_TEMPLATE_NOT_FOUND`. -/
def MSG_TEMPLATE_NOT_FOUND : String :=
  "java.io.FileNotFoundException.Sample_Format.xlsx(指定されたファイルが見つかりません。)"

/-- Source constant `MSG_FILE_IN_USE`. -/
def MSG_FILE_IN_USE : String := "ファイルにアクセスできません。別のプロセスが使用中です。"

/-- The `while True` collision loop of `generate`, with explicit fuel:
`none` models that the Python loop runs forever. -/
def resolveLoop (names : List String) (base : String) : Nat → Nat → Option String
  | _, 0 => none
  | k, fuel + 1 =>
    let cand := safe_sheet_name (base ++ "_" ++ toString k)
    if names.contains cand then resolveLoop names base (k + 1) fuel else some cand

/-- Title resolution in `generate`: the sanitized base if it is free, otherwise
the suffix loop starting at `k = 2`. -/
def resolve_title (names : List String) (base : String) (fuel : Nat) : Option String :=
  let n := safe_sheet_name base
  if names.contains n then resolveLoop names base 2 fuel else some n

/-- The fixed-position fields written into one generated sheet
(`CELL_MAP` order: title, B3, B4, G4, B5, G5, A9, A11, B13, A16). -/
structure SheetData where
  title : String
  office : String
  date : String
  user : String
  time : String
  method : String
  program : String
  dayreport : String
  temp : String
  slack : String
deriving DecidableEq

/-- `daily_by_date.get(date, {})`. -/
def dbGet (db : List (String × Row)) (date : String) : Row :=
  match db.find? fun p => p.1 == date with
  | some p => p.2
  | none => []

/-- Lines 376-378 of `generate`: the daily log's note if non-empty, else the
row's remarks column, else its record-sheet remarks column
(`daily_note or (r.get("備考") or r.get("実績記録票備考欄") or "").strip()`). -/
def raw_contact (daily : Row) (r : Row) : String :=
  let daily_note := pick_daily_note daily
  let cm_note := pyStrip (
    if rget r "備考" != "" then rget r "備考"
    else if rget r "実績記録票備考欄" != "" then rget r "実績記録票備考欄"
    else "")
  if daily_note != "" then daily_note else cm_note

/-- Line 345 of `generate`:
`f"{date.replace('/','')[:8]}_{(r.get('氏名','') or '').strip()}"`. -/
def sheet_title_base (date : String) (r : Row) : String :=
  (⟨(date.data.filter fun c => c != '/').take 8⟩ : String) ++ "_" ++ pyStrip (rget r "氏名")

/-- The field writes of one generated sheet (lines 359-379 of `generate`). -/
def make_sheet (sheet_name date : String) (daily r : Row) : SheetData :=
  ⟨sheet_name,
    rget r "事業所名",
    date,
    rget r "氏名",
    format_time_jp (rget r "実績開始時間") (rget r "実績終了時間"),
    normalize_method (rget r "実績記録票備考欄"),
    build_program daily,
    rget r "日報",
    temp_display (rget daily "体温"),
    format_contact_text (raw_contact daily r)⟩

/-- One iteration of the `for r in case_rows` loop of `generate`: either a
skip (`some (names, none)`), a new sheet appended to the workbook, or `none`
when the title-collision loop diverges. -/
def process_row (names : List String) (db : List (String × Row)) (r : Row) (fuel : Nat) :
    Option (List String × Option SheetData) :=
  let status := pyStrip (rget r "出欠等")
  if status == ABSENT_SKIP_VALUE then some (names, none)
  else if status != ATTEND_VALUE then some (names, none)
  else
    let date := normalize_date (rget r "年月日")
    if date == "" then some (names, none)
    else
      let daily := dbGet db date
      match resolve_title names (sheet_title_base date r) fuel with
      | none => none
      | some sheet_name =>
        some (names ++ [sheet_name], some (make_sheet sheet_name date daily r))

/-- The whole `for r in case_rows` loop: threads the growing title list and
collects the generated sheets in row order. -/
def assemble (db : List (String × Row)) (fuel : Nat) :
    List Row → List String → Option (List String × List SheetData)
  | [], names => some (names, [])
  | r :: rs, names =>
    match process_row names db r fuel with
    | none => none
    | some (names2, osheet) =>
      match assemble db fuel rs names2 with
      | none => none
      | some (namesF, sheets) =>
        some (namesF, match osheet with | some s => s :: sheets | none => sheets)

/-- The prefix match `re.match(r"^(\d{4})/(\d{1,2})", d)` of
`build_output_filename`, rendered as `f"{g1}{int(g2):02d}"`. -/
def monthFromDate (d : String) : Option String :=
  match d.data with
  | y1 :: y2 :: y3 :: y4 :: c :: m1 :: rest =>
    if y1.isDigit && y2.isDigit && y3.isDigit && y4.isDigit && c == '/' && m1.isDigit then
      some ((⟨[y1, y2, y3, y4]⟩ : String) ++ pad2 (
        match rest with
        | m2 :: _ =>
          if m2.isDigit then (m1.toNat - '0'.toNat) * 10 + (m2.toNat - '0'.toNat)
          else m1.toNat - '0'.toNat
        | [] => m1.toNat - '0'.toNat))
    else none
  | _ => none

/-- Python source, `build_output_filename` (given the first `caseDaily` row). -/
def build_output_filename (first_case_row : Row) (yyyymm : Option String) : String :=
  let name :=
    let n := pyStrip (rget first_case_row "氏名")
    if n == "" then "名前未設定" else n
  let ym :=
    match yyyymm with
    | some y => y
    | none =>
      match monthFromDate (normalize_date (rget first_case_row "年月日")) with
      | some y => y
      | none => "YYYYMM"
  name ++ "_" ++ ym ++ "_サービス支援記録.xlsx"

/-- The sample-sheet removal of `generate`:
`if "Sample" in wb.sheetnames: del wb["Sample"]` (sheet titles are unique). -/
def delete_sample_sheet (sheetnames : List String) : List String :=
  if sheetnames.contains "Sample" then sheetnames.erase "Sample" else sheetnames

/-- Required columns of the attendance log (source `required` list, in order). -/
def REQUIRED_COLUMNS : List String :=
  ["事業所名", "氏名", "年月日", "出欠等", "実績開始時間", "実績終了時間"]

/-- The external collaborators of one `generate` run: file names, read and
load results, the overwrite situation and the save outcome, plus the fuel for
the embedded collision loop.  Fields in source order of use. -/
structure GenWorld where
  template_exists : Bool
  user_name : String
  case_name : String
  case_read : Except String (List Row)
  user_read : Except String (List Row)
  outdir : String
  out_exists : Bool
  user_confirms : Bool
  wb_load : Except String (List String)
  save_ok : Bool
  fuel : Nat

/-- Outcome of a run: success with the output path, final sheet titles and
generated sheets; an error (the raised message); or divergence of the
collision loop. -/
inductive GenResult where
  | ok (path : String) (sheetnames : List String) (sheets : List SheetData)
  | err (msg : String)
  | hang
deriving DecidableEq

/-- Python source, `generate`, with the filesystem write trace made explicit:
the second component lists the paths written (`wb.save` is the only write, and
it is the final step; a failed save writes nothing).  Match arms follow the
source's statement order exactly. -/
def generate_model (w : GenWorld) : GenResult × List String :=
  if !w.template_exists then (.err MSG_TEMPLATE_NOT_FOUND, [])
  else
    match ensure_same_month w.user_name w.case_name with
    | .error e => (.err e, [])
    | .ok _ =>
      match w.case_read with
      | .error e => (.err e, [])
      | .ok case_rows =>
        match w.user_read with
        | .error e => (.err e, [])
        | .ok daily_rows =>
          if case_rows.isEmpty then (.err "caseDailyが空です。", [])
          else if daily_rows.isEmpty then (.err "userCaseDailyが空です。", [])
          else
            let yyyymm :=
              match extract_yyyymm_from_filename w.case_name with
              | some y => some y
              | none => extract_yyyymm_from_filename w.user_name
            let out_name := build_output_filename (case_rows.headD []) yyyymm
            let out_path := w.outdir ++ "/" ++ out_name
            if w.out_exists && !w.user_confirms then (.err "キャンセルしました。", [])
            else
              match w.wb_load with
              | .error e => (.err ("テンプレ読み込み失敗: " ++ e), [])
              | .ok sheetnames =>
                if !sheetnames.contains TEMPLATE_SHEET then
                  (.err ("テンプレに '" ++ TEMPLATE_SHEET ++ "' シートがありません。"), [])
                else
                  let names1 := delete_sample_sheet sheetnames
                  match pick_date_column daily_rows with
                  | none => (.err "IndexError: list index out of range", [])
                  | some date_col =>
                    let db := daily_rows.foldl
                      (fun m r => (normalize_date (rget r date_col), r) :: m) []
                    match REQUIRED_COLUMNS.find?
                        (fun c => !((case_rows.headD []).map Prod.fst).contains c) with
                    | some c => (.err ("caseDailyに必須列がありません: " ++ c), [])
                    | none =>
                      match assemble db w.fuel case_rows names1 with
                      | none => (.hang, [])
                      | some (namesF, sheets) =>
                        if w.save_ok then (.ok out_path namesF sheets, [out_path])
                        else (.err MSG_FILE_IN_USE, [])

/-- Spec-side predicate from claim C1: trimmed status equals the attended code
and the normalized visit date is non-empty. -/
def qualifies (r : Row) : Bool :=
  pyStrip (rget r "出欠等") == "出席" && normalize_date (rget r "年月日") != ""

/-- Spec-side predicate from claim C6: the sheet name contains the token
"sample" case-insensitively. -/
def containsSampleCI (name : String) : Bool :=
  strContains ⟨name.data.map Char.toLower⟩ "sample"

/-- Spec-side segmentation, following the spec's words for the contact note:
the list of (time token, following message text) pairs embedded in the text,
in order, together with the text before the first token.  Token recognition is
the same boundary-checked `H:MM` pattern. -/
def contactSegs (pw : Bool) : List Char → List Char × List (String × String)
  | d1 :: d2 :: c :: m1 :: m2 :: rest =>
    if !pw && d1.isDigit && d2.isDigit && c == ':' && m1.isDigit && m2.isDigit &&
        noWordAhead rest then
      let s := contactSegs true rest
      ([], (⟨[d1, d2, ':', m1, m2]⟩, ⟨s.1⟩) :: s.2)
    else if !pw && d1.isDigit && d2 == ':' && c.isDigit && m1.isDigit && !isWordChar m2 then
      let s := contactSegs true (m2 :: rest)
      ([], (⟨[d1, ':', c, m1]⟩, ⟨s.1⟩) :: s.2)
    else
      let s := contactSegs (isWordChar d1) (d2 :: c :: m1 :: m2 :: rest)
      (d1 :: s.1, s.2)
  | [d1, d2, c, m1] =>
    if !pw && d1.isDigit && d2 == ':' && c.isDigit && m1.isDigit then
      ([], [(⟨[d1, ':', c, m1]⟩, "")])
    else
      let s := contactSegs (isWordChar d1) [d2, c, m1]
      (d1 :: s.1, s.2)
  | d1 :: rest =>
    let s := contactSegs (isWordChar d1) rest
    (d1 :: s.1, s.2)
  | [] => ([], [])

/-- Interleave pairs back into the alternating `re.split` segment list
(without the leading text segment). -/
def interleaveSegs : List (String × String) → List String
  | [] => []
  | (t, m) :: rest => t :: m :: interleaveSegs rest

/-- Spec-side: the text contains at least one time token. -/
def hasTimeToken (s : String) : Bool :=
  !(contactSegs false s.data).2.isEmpty

/-- Spec-side rendering of one time-tagged segment:
`{time} {message}` with the cap-and-ellipsis rule on the trimmed message and
the line right-trimmed. -/
def lineOfSeg (p : String × String) : String :=
  pyRStrip (p.1 ++ " " ++ cap30 (pyStrip p.2))

/-- Spec-side contact source selection (claim C7): daily-log note first, else
the attendance row's remarks, else its record-sheet remarks column. -/
def contact_choice (db : List (String × Row)) (r : Row) : String :=
  let daily := dbGet db (normalize_date (rget r "年月日"))
  let daily_note := pick_daily_note daily
  let cm_note := pyStrip (
    if rget r "備考" != "" then rget r "備考"
    else if rget r "実績記録票備考欄" != "" then rget r "実績記録票備考欄"
    else "")
  if daily_note != "" then daily_note else cm_note

/-- A Python string argument that may be `None` (claim C8). -/
inductive PyStr where
  | none
  | mk (s : String)

/-- The `x or ""` guard applied to a possibly-`None` string. -/
def pyOrEmpty : PyStr → String
  | .none => ""
  | .mk s => s

/-- Calling a `str` method on a possibly-`None` value: raises
`AttributeError` on `None`. -/
def pyAttr : PyStr → Except String String
  | .none => Except.error "AttributeError"
  | .mk s => Except.ok s

/-- The substring operator applied to a possibly-`None` value: raises
`TypeError` on `None`. -/
def pyContains (v : PyStr) (pat : String) : Except String Bool :=
  match v with
  | .none => Except.error "TypeError"
  | .mk s => Except.ok (strContains s pat)

/-- `normalize_date` with the possibly-raising operations made explicit:
`(s or "")` guards the `.strip()` attribute access. -/
def normalize_date_exc (v : PyStr) : Except String String :=
  match pyAttr (PyStr.mk (pyOrEmpty v)) with
  | .error e => .error e
  | .ok s => .ok (normalize_date s)

/-- `parse_hhmm` with the guarded `.strip()` made explicit. -/
def parse_hhmm_exc (v : PyStr) : Except String (Option (Nat × Nat)) :=
  match pyAttr (PyStr.mk (pyOrEmpty v)) with
  | .error e => .error e
  | .ok s => .ok (parse_hhmm s)

/-- `format_time_jp` with the possibly-raising operations made explicit. -/
def format_time_jp_exc (a b : PyStr) : Except String String := do
  let ps ← parse_hhmm_exc a
  let pe ← parse_hhmm_exc b
  match ps, pe with
  | some (sh, sm), some (eh, em) =>
    pure (toString sh ++ "時" ++ pad2 sm ++ "分～" ++ toString eh ++ "時" ++ pad2 em ++ "分")
  | _, _ => do
    let s ← pyAttr (PyStr.mk (pyOrEmpty a))
    let e ← pyAttr (PyStr.mk (pyOrEmpty b))
    let s2 := pyStrip s
    let e2 := pyStrip e
    pure (if s2 == "" && e2 == "" then "" else s2 ++ "～" ++ e2)

/-- `normalize_method` with the possibly-raising substring tests explicit:
`raw = raw or ""` guards them. -/
def normalize_method_exc (v : PyStr) : Except String String := do
  let raw := PyStr.mk (pyOrEmpty v)
  let h ← pyContains raw "在宅"
  let t ← pyContains raw "通所"
  pure (if h && !t then "利用者宅" else "事業所")

/-- `format_contact_text` with the guarded `.strip()` made explicit (every
list access in its loop is bounds-checked in the source and appears here as a
total pattern match). -/
def format_contact_text_exc (v : PyStr) : Except String String := do
  let text ← (pyAttr (PyStr.mk (pyOrEmpty v))).map pyStrip
  if text == "" then pure ""
  else
    let parts := reSplitAux false [] text.data
    if parts.length == 1 then pure (cap30 text)
    else pure (String.intercalate "\n" ((renderLines parts).filter fun l => l != ""))

/-- The temperature rendering with the guarded `.strip()` made explicit. -/
def temp_display_exc (v : PyStr) : Except String String := do
  let t ← (pyAttr (PyStr.mk (pyOrEmpty v))).map pyStrip
  pure (if t == "" then "未検温" else t ++ "℃")

/-- A 30-character person name; the resulting sanitized title base exceeds the
31-character cap, so every collision suffix is truncated away (claim C2). -/
def longPersonName : String := ⟨List.replicate 30 'a'⟩

/-- An attended row whose sanitized title base is 39 characters long. -/
def bugRow : Row :=
  [("出欠等", "出席"), ("年月日", "2025/01/10"), ("氏名", longPersonName)]

/-- The title base computed by `generate` for `bugRow`. -/
def bugBase : String := "20250110_" ++ longPersonName

/-- The sanitized (truncated) title of `bugRow`. -/
def bugTitle : String := safe_sheet_name bugBase

/-- Witness rows for claim C1. -/
def wRowAttend : Row :=
  [("出欠等", "出席"), ("年月日", "2025-01-10"), ("氏名", "山田")]

/-- A row skipped by the absence-handled code (claim C1 witness). -/
def wRowSkip : Row :=
  [("出欠等", "欠席時対応"), ("年月日", "2025-01-10"), ("氏名", "山田")]

/-- A 40-character value for the contact field (claim C7). -/
def fortyA : String := ⟨List.replicate 40 'a'⟩

/-- An attended row whose remarks column holds `fortyA` (claim C7). -/
def c7Row : Row :=
  [("出欠等", "出席"), ("年月日", "2025/01/10"), ("氏名", "山田"), ("備考", fortyA)]

/-- A complete healthy run whose template contains a sheet named `sample1`
(claim C6): fields in `GenWorld` order. -/
def c6World : GenWorld :=
  ⟨true, "userCaseDaily_202501.csv", "caseDaily_202501.csv",
    .ok [[("事業所名", "X"), ("氏名", "山田"), ("年月日", "2025/01/10"),
      ("出欠等", "出席"), ("実績開始時間", "9:00"), ("実績終了時間", "17:30")]],
    .ok [[("日付", "2025/01/10"), ("体温", "36.2")]],
    "out", false, true, .ok ["Format", "sample1", "Sample"], true, 5⟩

/-- A run stopped by the month-mismatch check (claim C10 witness). -/
def c10World : GenWorld :=
  ⟨true, "userCaseDaily_202501.csv", "caseDaily_202502.csv",
    .ok [], .ok [], "out", false, true, .ok ["Format"], true, 5⟩

theorem searchMonthToken_isSome (cs : List Char) :
    (searchMonthToken cs).isSome = cs.tails.any fun l => (monthTokenAt l).isSome := by
  induction cs with
  | nil => rfl
  | cons c rest ih =>
    rw [searchMonthToken]
    cases h : monthTokenAt (c :: rest) with
    | some t => simp [List.tails, h]
    | none => simp [List.tails, h, ih]

theorem hasMonthToken_eq_isSome (s : String) :
    hasMonthToken s = (extract_yyyymm_from_filename s).isSome := by
  rw [hasMonthToken, extract_yyyymm_from_filename, searchMonthToken_isSome]

/-- Claim C5: the month-consistency check raises `MonthMismatchError` iff both
input file names contain a `_YYYYMM` token and the (leftmost) tokens differ;
otherwise it raises nothing, and these are its only two outcomes. -/
theorem month_check_iff_mismatch :
    (∀ u c : String,
      ensure_same_month u c = Except.error MSG_MONTH_MISMATCH ↔
        (hasMonthToken u = true ∧ hasMonthToken c = true ∧
          extract_yyyymm_from_filename u ≠ extract_yyyymm_from_filename c)) ∧
    ensure_same_month "userCaseDaily_202501.csv" "caseDaily_202502.csv" =
      Except.error MSG_MONTH_MISMATCH ∧
    ensure_same_month "caseDaily_202501.csv" "caseDaily_202501.csv" = Except.ok () ∧
    (∀ u c : String,
      ensure_same_month u c = Except.error MSG_MONTH_MISMATCH ∨
        ensure_same_month u c = Except.ok ()) := by
  refine ⟨?_, by rfl, by rfl, ?_⟩
  · intro u c
    rw [hasMonthToken_eq_isSome, hasMonthToken_eq_isSome]
    unfold ensure_same_month
    cases hu : extract_yyyymm_from_filename u with
    | none => simp [hu]
    | some a =>
      cases hc : extract_yyyymm_from_filename c with
      | none => simp [hc]
      | some b =>
        by_cases hab : a = b
        · subst hab
          simp
        · simp [hab]
  · intro u c
    unfold ensure_same_month
    cases extract_yyyymm_from_filename u with
    | none => right; rfl
    | some a =>
      cases extract_yyyymm_from_filename c with
      | none => right; rfl
      | some b =>
        by_cases hab : a ≠ b
        · left; simp [hab]
        · right; simp [hab]

/-- Witness for C5: a concrete mismatching pair, obtained by applying the main
theorem's equivalence at explicit file names. -/
theorem month_check_iff_mismatch_witness :
    ensure_same_month "a_111111.csv" "b_222222.csv" = Except.error MSG_MONTH_MISMATCH :=
  (month_check_iff_mismatch.1 "a_111111.csv" "b_222222.csv").mpr
    ⟨by decide, by decide, by decide⟩


/-- Counterexample to claim C3: the code accepts neither a trailing `:SS` nor
the `H時M分` pattern, and a side that fails to parse is never rendered alone —
the raw trimmed strings are joined instead. -/
theorem time_range_counterexample :
    format_time_jp "9:00" "17時30分" = "9:00～17時30分" ∧
    format_time_jp "9:00:00" "17:30" = "9:00:00～17:30" ∧
    format_time_jp "9:00" "abc" = "9:00～abc" ∧
    "9:00～17時30分" ≠ "9時00分～17時30分" ∧
    "9:00:00～17:30" ≠ "9時00分～17時30分" ∧
    "9:00～abc" ≠ "9時00分" :=
  ⟨rfl, rfl, rfl, by decide, by decide, by decide⟩

/-- Claim C3 as amended: each side parses only under the anchored `H:MM`
pattern; if both parse the range renders as `{h}時{mm}分～{h}時{mm}分`
(minutes zero-padded to two digits, hours unpadded); otherwise the trimmed raw
strings are joined by a full-width tilde, empty when both are empty. -/
theorem time_range_amended :
    (∀ s e : String, ∀ sh sm eh em : Nat,
      parse_hhmm s = some (sh, sm) → parse_hhmm e = some (eh, em) →
        format_time_jp s e =
          toString sh ++ "時" ++ pad2 sm ++ "分～" ++ toString eh ++ "時" ++ pad2 em ++ "分") ∧
    (∀ s e : String, parse_hhmm s = none ∨ parse_hhmm e = none →
      format_time_jp s e =
        if pyStrip s == "" && pyStrip e == "" then "" else pyStrip s ++ "～" ++ pyStrip e) ∧
    parse_hhmm "9:00:00" = none ∧
    parse_hhmm "17時30分" = none ∧
    pad2 0 = "00" ∧ pad2 5 = "05" ∧ pad2 30 = "30" ∧ toString (9 : Nat) = "9" := by
  refine ⟨?_, ?_, rfl, rfl, rfl, rfl, rfl, rfl⟩
  · intro s e sh sm eh em hs he
    simp only [format_time_jp, hs, he]
  · intro s e h
    rcases h with h | h
    · cases he : parse_hhmm e <;> simp only [format_time_jp, h, he]
    · cases hs : parse_hhmm s with
      | none => simp only [format_time_jp, hs, h]
      | some p => cases p with
        | mk a b => simp only [format_time_jp, hs, h]

/-- Witness for C3: the canonical spec example, via the amended theorem. -/
theorem time_range_amended_witness :
    format_time_jp "9:00" "17:30" =
      toString 9 ++ "時" ++ pad2 0 ++ "分～" ++ toString 17 ++ "時" ++ pad2 30 ++ "分" :=
  time_range_amended.1 "9:00" "17:30" 9 0 17 30 rfl rfl

theorem format_time_jp_exc_ok (s t : String) :
    format_time_jp_exc (PyStr.mk s) (PyStr.mk t) = Except.ok (format_time_jp s t) := by
  cases hps : parse_hhmm s with
  | none =>
    cases hpe : parse_hhmm t <;>
      simp +unfoldPartialApp [format_time_jp_exc, parse_hhmm_exc, pyAttr, pyOrEmpty,
        format_time_jp, hps, hpe, Bind.bind, Except.bind, Pure.pure, Except.pure, Except.map]
  | some p =>
    obtain ⟨a, b⟩ := p
    cases hpe : parse_hhmm t with
    | none =>
      simp +unfoldPartialApp [format_time_jp_exc, parse_hhmm_exc, pyAttr, pyOrEmpty,
        format_time_jp, hps, hpe, Bind.bind, Except.bind, Pure.pure, Except.pure, Except.map]
    | some q =>
      obtain ⟨c, d⟩ := q
      simp +unfoldPartialApp [format_time_jp_exc, parse_hhmm_exc, pyAttr, pyOrEmpty,
        format_time_jp, hps, hpe, Bind.bind, Except.bind, Pure.pure, Except.pure, Except.map]

theorem format_contact_text_exc_ok (s : String) :
    format_contact_text_exc (PyStr.mk s) = Except.ok (format_contact_text s) := by
  simp only [format_contact_text_exc, format_contact_text, pyAttr, pyOrEmpty,
    Except.map, Bind.bind, Except.bind, Pure.pure, Except.pure]
  cases h1 : (pyStrip s == "") with
  | true => simp [h1]
  | false =>
    cases h2 : ((reSplitAux false [] (pyStrip s).data).length == 1) <;> simp [h1, h2]

/-- Claim C8: every field normalizer is total — with the possibly-raising
Python primitives (attribute access and substring test on a possibly-`None`
argument) made explicit, each normalizer always returns `ok` of the value the
pure embedding computes, for every argument including `None`. -/
theorem normalizers_never_raise :
    ∀ v w : PyStr,
      normalize_date_exc v = Except.ok (normalize_date (pyOrEmpty v)) ∧
      format_time_jp_exc v w = Except.ok (format_time_jp (pyOrEmpty v) (pyOrEmpty w)) ∧
      normalize_method_exc v = Except.ok (normalize_method (pyOrEmpty v)) ∧
      format_contact_text_exc v = Except.ok (format_contact_text (pyOrEmpty v)) ∧
      temp_display_exc v = Except.ok (temp_display (pyOrEmpty v)) := by
  intro v w
  refine ⟨?_, ?_, ?_, ?_, ?_⟩
  · cases v <;> rfl
  · cases v with
    | none => cases w with
      | none => exact format_time_jp_exc_ok "" ""
      | mk t => exact format_time_jp_exc_ok "" t
    | mk s => cases w with
      | none => exact format_time_jp_exc_ok s ""
      | mk t => exact format_time_jp_exc_ok s t
  · cases v <;> rfl
  · cases v with
    | none => exact format_contact_text_exc_ok ""
    | mk s => exact format_contact_text_exc_ok s
  · cases v <;> rfl


/-- Counterexample to claim C6: a healthy end-to-end run whose template holds a
sheet named `sample1` — which contains "sample" case-insensitively — keeps that
sheet in the output document; only the sheet named exactly `Sample` is removed,
and only in the single pass before generation. -/
theorem sample_sheet_counterexample :
    containsSampleCI "sample1" = true ∧
    delete_sample_sheet ["Format", "sample1", "Sample"] = ["Format", "sample1"] ∧
    (generate_model c6World).1 =
      GenResult.ok "out/山田_202501_サービス支援記録.xlsx"
        ["Format", "sample1", "20250110_山田"]
        [⟨"20250110_山田", "X", "2025/01/10", "山田", "9時00分～17時30分", "事業所",
          "", "", "36.2℃", ""⟩] ∧
    ("Format" :: "sample1" :: ["20250110_山田"]).contains "sample1" = true :=
  ⟨rfl, rfl, rfl, rfl⟩

/-- Claim C6 as amended: exactly the sheet titled `Sample` (exact,
case-sensitive match) is removed, once, before sheet generation; any other
sheet — including ones whose names contain "sample" case-insensitively — is
kept. -/
theorem sample_sheet_exact_removal :
    ∀ names : List String, names.count "Sample" ≤ 1 →
      ("Sample" ∉ delete_sample_sheet names ∧
        ∀ n ∈ names, n ≠ "Sample" → n ∈ delete_sample_sheet names) := by
  intro names h
  unfold delete_sample_sheet
  by_cases hm : "Sample" ∈ names
  · rw [if_pos (List.elem_iff.mpr hm)]
    constructor
    · intro hmem
      have hpos := List.count_pos_iff.mpr hmem
      rw [List.count_erase_self] at hpos
      have := List.count_pos_iff.mpr hm
      omega
    · intro n hn hne
      exact (List.mem_erase_of_ne hne).mpr hn
  · rw [if_neg (fun hc => hm (List.elem_iff.mp hc))]
    exact ⟨hm, fun n hn _ => hn⟩

/-- Witness for C6: the amended statement applied to the counterexample's
template sheet list. -/
theorem sample_sheet_exact_removal_witness :
    "Sample" ∉ delete_sample_sheet ["Format", "sample1", "Sample"] ∧
    "sample1" ∈ delete_sample_sheet ["Format", "sample1", "Sample"] :=
  ⟨(sample_sheet_exact_removal ["Format", "sample1", "Sample"] (by decide)).1,
    (sample_sheet_exact_removal ["Format", "sample1", "Sample"] (by decide)).2
      "sample1" (by decide) (by decide)⟩

/-- Counterexample to claim C7: a 40-character remark — far below 1500
characters — is not written unchanged into the contact cell; it is cut at 30
characters and suffixed with the ellipsis glyph. -/
theorem long_text_cap_counterexample :
    fortyA.length ≤ 1500 ∧
    ((process_row ["Format"] [] c7Row 1).bind fun p => p.2).map (fun s => s.slack) =
      some ((⟨List.replicate 30 'a'⟩ : String) ++ ELLIPSIS) ∧
    (⟨List.replicate 30 'a'⟩ : String) ++ ELLIPSIS ≠ fortyA :=
  ⟨by decide, rfl, by decide⟩


theorem dropWhile_fix_head {p : Char → Bool} {a : Char} {t : List Char}
    (h : (a :: t).dropWhile p = a :: t) : p a = false := by
  have h0 := List.dropWhile_eq_self_iff.mp h (by simp)
  simpa using h0

theorem dropWhile_append_fix {p : Char → Bool} {l1 : List Char} (l2 : List Char)
    (h : l1.dropWhile p = l1) (hne : l1 ≠ []) :
    (l1 ++ l2).dropWhile p = l1 ++ l2 := by
  cases l1 with
  | nil => exact absurd rfl hne
  | cons a t =>
    have hpa : p a = false := dropWhile_fix_head h
    rw [List.cons_append, List.dropWhile_cons, if_neg (by simp [hpa])]

theorem dropWhile_append_keep {p : Char → Bool} (l1 : List Char) {l2 : List Char}
    (h : l2.dropWhile p = l2) :
    (l1 ++ l2).dropWhile p = l1.dropWhile p ++ l2 := by
  induction l1 with
  | nil => simpa using h
  | cons a t ih =>
    by_cases hp : p a = true
    · rw [List.cons_append, List.dropWhile_cons, if_pos hp, List.dropWhile_cons, if_pos hp, ih]
    · rw [List.cons_append, List.dropWhile_cons, if_neg hp, List.dropWhile_cons, if_neg hp,
        List.cons_append]

theorem stripChars_append_clean {l1 : List Char} (l2 : List Char)
    (h1 : l1.dropWhile isPySpace = l1)
    (h2 : l1.reverse.dropWhile isPySpace = l1.reverse)
    (hne : l1 ≠ []) :
    stripChars (l1 ++ l2) = l1 ++ rstripChars l2 := by
  unfold stripChars lstripChars rstripChars
  rw [dropWhile_append_fix l2 h1 hne, List.reverse_append,
    dropWhile_append_keep l2.reverse h2, List.reverse_append, List.reverse_reverse]

/-- Every suffix appended to the 39-character clean base sanitizes to the same
31-character truncated title: the collision suffix is cut away entirely. -/
theorem safe_bugBase_append (t : String) :
    safe_sheet_name (bugBase ++ t) = bugTitle := by
  unfold safe_sheet_name
  rw [String.data_append, List.map_append]
  have hmap : bugBase.data.map replaceForbidden = bugBase.data := by decide
  rw [hmap, stripChars_append_clean _ (by decide) (by decide) (by decide),
    List.take_append_eq_append_take]
  have hlen : bugBase.data.length = 39 := by decide
  rw [hlen]
  simp only [show 31 - 39 = 0 from rfl, List.take_zero, List.append_nil]
  decide

theorem resolveLoop_bug_none : ∀ fuel k : Nat,
    resolveLoop ["Format", bugTitle] bugBase k fuel = none := by
  intro fuel
  induction fuel with
  | zero => intro k; rfl
  | succ n ih =>
    intro k
    rw [resolveLoop]
    have hc : safe_sheet_name (bugBase ++ "_" ++ toString k) = bugTitle := by
      rw [String.append_assoc]
      exact safe_bugBase_append ("_" ++ toString k)
    simp only [hc]
    rw [if_pos (by decide)]
    exact ih (k + 1)

/-- Claim C2 (code bug): with two attended rows sharing a 39-character title
base, the second row's collision loop never terminates — for every fuel the
embedded loop is still searching, because every candidate `base_k` sanitizes
back to the already-used 31-character title. -/
theorem title_collision_diverges :
    ∀ fuel : Nat, assemble [] fuel [bugRow, bugRow] ["Format"] = none := by
  intro fuel
  have h1 : process_row ["Format"] [] bugRow fuel =
      some (["Format", bugTitle], some
        (make_sheet bugTitle "2025/01/10" [] bugRow)) := rfl
  have hkey : process_row ["Format", bugTitle] [] bugRow fuel =
      match resolveLoop ["Format", bugTitle] bugBase 2 fuel with
      | none => none
      | some nm =>
        some (["Format", bugTitle] ++ [nm], some
          (make_sheet nm "2025/01/10" [] bugRow)) := rfl
  have h2 : process_row ["Format", bugTitle] [] bugRow fuel = none := by
    rw [hkey, resolveLoop_bug_none]
  simp only [assemble, h1, h2]


theorem process_row_emits
    {names : List String} {db : List (String × Row)} {r : Row} {fuel : Nat}
    {p : List String × Option SheetData}
    (h : process_row names db r fuel = some p) :
    p.2.isSome = qualifies r := by
  unfold qualifies
  by_cases h1 : (pyStrip (rget r "出欠等") == ABSENT_SKIP_VALUE) = true
  · have he : process_row names db r fuel = some (names, none) := by
      simp [process_row, h1]
    rw [he] at h
    obtain rfl := Option.some_inj.mp h
    have hs : pyStrip (rget r "出欠等") = ABSENT_SKIP_VALUE := by simpa using h1
    rw [hs, show (ABSENT_SKIP_VALUE == "出席") = false from rfl, Bool.false_and]
    rfl
  · have h1f : (pyStrip (rget r "出欠等") == ABSENT_SKIP_VALUE) = false := by
      simpa using h1
    by_cases h2 : (pyStrip (rget r "出欠等") != ATTEND_VALUE) = true
    · have he : process_row names db r fuel = some (names, none) := by
        simp [process_row, h1f, h2]
      rw [he] at h
      obtain rfl := Option.some_inj.mp h
      have hsne : pyStrip (rget r "出欠等") ≠ ATTEND_VALUE := by simpa using h2
      have hb : (pyStrip (rget r "出欠等") == "出席") = false :=
        beq_eq_false_iff_ne.mpr hsne
      rw [hb, Bool.false_and]
      rfl
    · have h2f : (pyStrip (rget r "出欠等") != ATTEND_VALUE) = false := by
        simpa using h2
      have hsb : (pyStrip (rget r "出欠等") == "出席") = true := by
        have heq : pyStrip (rget r "出欠等") = ATTEND_VALUE := bne_eq_false_iff_eq.mp h2f
        rw [heq]
        decide
      by_cases h3 : (normalize_date (rget r "年月日") == "") = true
      · have he : process_row names db r fuel = some (names, none) := by
          simp [process_row, h1f, h2f, h3]
        rw [he] at h
        obtain rfl := Option.some_inj.mp h
        have hd2 : (normalize_date (rget r "年月日") != "") = false := by
          simp [bne, h3]
        rw [hd2, Bool.and_false]
        rfl
      · have h3f : (normalize_date (rget r "年月日") == "") = false := by
          simpa using h3
        have hd2 : (normalize_date (rget r "年月日") != "") = true := by
          simp [bne, h3f]
        have he : process_row names db r fuel =
            match resolve_title names
                (sheet_title_base (normalize_date (rget r "年月日")) r) fuel with
            | none => none
            | some nm =>
              some (names ++ [nm], some (make_sheet nm (normalize_date (rget r "年月日"))
                (dbGet db (normalize_date (rget r "年月日"))) r)) := by
          simp [process_row, h1f, h2f, h3f]
        rw [he] at h
        split at h
        next => exact Option.noConfusion h
        next nm hres =>
          obtain rfl := Option.some_inj.mp h
          rw [hsb, hd2]
          rfl

theorem assemble_cons (db : List (String × Row)) (fuel : Nat) (r : Row) (rs : List Row)
    (names : List String) :
    assemble db fuel (r :: rs) names =
      match process_row names db r fuel with
      | none => none
      | some (names2, osheet) =>
        match assemble db fuel rs names2 with
        | none => none
        | some (namesF, sheets) =>
          some (namesF, match osheet with | some s => s :: sheets | none => sheets) := rfl

theorem assemble_count {db : List (String × Row)} {fuel : Nat} :
    ∀ (rows : List Row) (names : List String) (q : List String × List SheetData),
      assemble db fuel rows names = some q →
      q.2.length = (rows.filter fun r => qualifies r).length := by
  intro rows
  induction rows with
  | nil =>
    intro names q h
    obtain rfl := Option.some_inj.mp h
    rfl
  | cons r rs ih =>
    intro names q h
    rw [assemble_cons] at h
    split at h
    next => exact Option.noConfusion h
    next names2 osheet hp =>
      split at h
      next => exact Option.noConfusion h
      next namesF sheets ha =>
        obtain rfl := Option.some_inj.mp h
        have hcount := ih names2 (namesF, sheets) ha
        have hemit := process_row_emits hp
        cases ho : osheet with
        | some sh =>
          rw [ho] at hemit
          have hq : qualifies r = true := hemit.symm
          show (sh :: sheets).length = _
          simp only [List.filter_cons, hq, if_pos]
          simpa using hcount
        | none =>
          rw [ho] at hemit
          have hq : qualifies r = false := hemit.symm
          show sheets.length = _
          simp only [List.filter_cons, hq]
          simpa using hcount

/-- Claim C1: a processed attendance row yields a sheet exactly when its
trimmed status equals the attended code and its normalized date is non-empty
(the absence-handled code and every other status yield none), and a completed
run emits exactly one sheet per qualifying row. -/
theorem attended_rows_emit_one_sheet :
    (∀ (names : List String) (db : List (String × Row)) (r : Row) (fuel : Nat)
        (p : List String × Option SheetData),
      process_row names db r fuel = some p → p.2.isSome = qualifies r) ∧
    (∀ (db : List (String × Row)) (fuel : Nat) (rows : List Row) (names : List String)
        (q : List String × List SheetData),
      assemble db fuel rows names = some q →
      q.2.length = (rows.filter fun r => qualifies r).length) :=
  ⟨fun _ _ _ _ _ h => process_row_emits h,
    fun _ _ rows names q h => assemble_count rows names q h⟩

/-- Witness for C1: a two-row run (one attended, one absence-handled) emits
exactly as many sheets as it has qualifying rows. -/
theorem attended_rows_emit_one_sheet_witness :
    ((assemble [] 1 [wRowAttend, wRowSkip] ["Format"]).map fun q => q.2.length) =
      some (([wRowAttend, wRowSkip].filter fun r => qualifies r).length) := by
  obtain ⟨q, hq⟩ : ∃ q, assemble [] 1 [wRowAttend, wRowSkip] ["Format"] = some q := ⟨_, rfl⟩
  rw [hq]
  show some q.2.length = _
  exact congrArg some
    (attended_rows_emit_one_sheet.2 [] 1 [wRowAttend, wRowSkip] ["Format"] q hq)


/-- Claim C10: a run writes at most one path, and only on the successful
outcome — on every error outcome (template missing, month mismatch, read
failure, empty log, cancelled overwrite, load failure, missing format sheet,
missing required column, failed save) and on divergence the write trace is
empty, so the filesystem output is untouched; a successful run writes exactly
the output path, as its final step. -/
theorem generate_writes_only_last :
    ∀ w : GenWorld,
      (generate_model w).2.length ≤ 1 ∧
      (∀ m, (generate_model w).1 = GenResult.err m → (generate_model w).2 = []) ∧
      ((generate_model w).1 = GenResult.hang → (generate_model w).2 = []) ∧
      (∀ p ns ss, (generate_model w).1 = GenResult.ok p ns ss →
        (generate_model w).2 = [p]) := by
  intro w
  suffices hs : ∀ res trace, generate_model w = (res, trace) →
      (trace.length ≤ 1 ∧ (∀ m, res = GenResult.err m → trace = []) ∧
        (res = GenResult.hang → trace = []) ∧
        (∀ p ns ss, res = GenResult.ok p ns ss → trace = [p])) by
    exact hs (generate_model w).1 (generate_model w).2 rfl
  intro res trace h
  simp only [generate_model] at h
  repeat' split at h
  all_goals injection h with h1 h2
  all_goals subst h1
  all_goals subst h2
  all_goals exact ⟨by simp,
    by intro m hm; first | rfl | exact GenResult.noConfusion hm,
    by intro hh; first | rfl | exact GenResult.noConfusion hh,
    by intro p ns ss hok
       first
       | exact GenResult.noConfusion hok
       | (injection hok with e1 e2 e3; rw [e1])⟩

/-- Witness for C10: the month-mismatch run stops with an error and an empty
write trace, via the main theorem. -/
theorem generate_writes_only_last_witness :
    (generate_model c10World).1 = GenResult.err MSG_MONTH_MISMATCH ∧
    (generate_model c10World).2 = [] :=
  ⟨rfl, (generate_writes_only_last c10World).2.1 MSG_MONTH_MISMATCH rfl⟩


theorem isPySpace_false_of_isDigit {a : Char} (h : a.isDigit = true) :
    isPySpace a = false := by
  cases hsp : isPySpace a with
  | false => rfl
  | true =>
    exfalso
    simp only [isPySpace, Bool.or_eq_true, beq_iff_eq] at hsp
    have hcase : a = ' ' ∨ a = '\t' ∨ a = '\n' ∨ a = '\r' ∨ a = '\x0b' ∨ a = '\x0c' ∨
        a = '　' := by tauto
    rcases hcase with rfl | rfl | rfl | rfl | rfl | rfl | rfl <;> exact absurd h (by decide)

theorem isWordChar_of_isDigit {a : Char} (h : a.isDigit = true) :
    isWordChar a = true := by
  simp [isWordChar, Char.isAlphanum, h]

theorem rstripChars_eq_nil_iff {l : List Char} :
    rstripChars l = [] ↔ ∀ c ∈ l, isPySpace c = true := by
  simp [rstripChars, List.reverse_eq_nil_iff, List.dropWhile_eq_nil_iff, List.mem_reverse]

theorem fullToken_getLast {l : List Char} (h : isFullToken ⟨l⟩ = true) :
    ∃ e, l.getLast? = some e ∧ e.isDigit = true := by
  rcases l with _ | ⟨a, _ | ⟨b, _ | ⟨c, _ | ⟨d, _ | ⟨e, _ | ⟨f, rest⟩⟩⟩⟩⟩⟩
  · exact Bool.noConfusion h
  · exact Bool.noConfusion h
  · exact Bool.noConfusion h
  · exact Bool.noConfusion h
  · have h2 : (a.isDigit && b == ':' && c.isDigit && d.isDigit) = true := h
    simp only [Bool.and_eq_true] at h2
    exact ⟨d, rfl, h2.2⟩
  · have h2 : (a.isDigit && b.isDigit && c == ':' && d.isDigit && e.isDigit) = true := h
    simp only [Bool.and_eq_true] at h2
    exact ⟨e, rfl, h2.2⟩
  · exact Bool.noConfusion h

theorem fullToken_head_digit {l : List Char} (h : isFullToken ⟨l⟩ = true) :
    ∃ a t, l = a :: t ∧ a.isDigit = true := by
  rcases l with _ | ⟨a, _ | ⟨b, _ | ⟨c, _ | ⟨d, _ | ⟨e, _ | ⟨f, rest⟩⟩⟩⟩⟩⟩
  · exact Bool.noConfusion h
  · exact Bool.noConfusion h
  · exact Bool.noConfusion h
  · exact Bool.noConfusion h
  · have h2 : (a.isDigit && b == ':' && c.isDigit && d.isDigit) = true := h
    simp only [Bool.and_eq_true] at h2
    exact ⟨a, _, rfl, h2.1.1.1⟩
  · have h2 : (a.isDigit && b.isDigit && c == ':' && d.isDigit && e.isDigit) = true := h
    simp only [Bool.and_eq_true] at h2
    exact ⟨a, _, rfl, h2.1.1.1.1⟩
  · exact Bool.noConfusion h

theorem renderLines_skip (p : String) (rest : List String) (h : isFullToken p = false) :
    renderLines (p :: rest) = renderLines rest := by
  cases rest with
  | nil => simp [renderLines, h]
  | cons m rest2 => simp [renderLines, h]

theorem renderLines_interleave : ∀ ps : List (String × String),
    (∀ p ∈ ps, isFullToken p.1 = true) →
    renderLines (interleaveSegs ps) = ps.map lineOfSeg := by
  intro ps
  induction ps with
  | nil => intro _; rfl
  | cons p rest ih =>
    intro hfull
    obtain ⟨t, m⟩ := p
    have ht : isFullToken t = true := hfull (t, m) (List.mem_cons_self _ _)
    simp only [interleaveSegs, renderLines, ht, if_pos, List.map_cons]
    rw [ih fun q hq => hfull q (List.mem_cons_of_mem _ hq)]
    rfl

theorem interleaveSegs_length (ps : List (String × String)) :
    (interleaveSegs ps).length = 2 * ps.length := by
  induction ps with
  | nil => rfl
  | cons p rest ih =>
    obtain ⟨t, m⟩ := p
    simp [interleaveSegs, ih]
    omega

theorem lineOfSeg_ne_empty {p : String × String} (h : isFullToken p.1 = true) :
    lineOfSeg p ≠ "" := by
  obtain ⟨t, m⟩ := p
  obtain ⟨a, tl, hdata, hdig⟩ := fullToken_head_digit (l := t.data) h
  intro hc
  have hnil : rstripChars ((t ++ " " ++ cap30 (pyStrip m)).data) = [] :=
    congrArg String.data hc
  rw [String.data_append, String.data_append, hdata] at hnil
  have := rstripChars_eq_nil_iff.mp hnil a (by simp)
  rw [isPySpace_false_of_isDigit hdig] at this
  exact Bool.noConfusion this


/-- The `re.split` embedding and the spec-side segmentation agree: the split
list is the leading text segment (after the accumulated reversed prefix)
followed by the interleaved (token, message) pairs. -/
theorem reSplit_eq_segs : ∀ (pw : Bool) (cs : List Char) (acc : List Char),
    reSplitAux pw acc cs =
      (⟨acc.reverse ++ (contactSegs pw cs).1⟩ : String) ::
        interleaveSegs (contactSegs pw cs).2 := by
  intro pw cs
  induction pw, cs using contactSegs.induct with
  | case1 pw d1 d2 c m1 m2 rest hA ih =>
    intro acc
    have e1 : reSplitAux pw acc (d1 :: d2 :: c :: m1 :: m2 :: rest) =
        (⟨acc.reverse⟩ : String) :: (⟨[d1, d2, ':', m1, m2]⟩ : String) ::
          reSplitAux true [] rest := by
      simp only [reSplitAux]
      rw [if_pos hA]
    have e2 : contactSegs pw (d1 :: d2 :: c :: m1 :: m2 :: rest) =
        ([], ((⟨[d1, d2, ':', m1, m2]⟩ : String),
          (⟨(contactSegs true rest).1⟩ : String)) :: (contactSegs true rest).2) := by
      simp only [contactSegs]
      rw [if_pos hA]
    rw [e1, e2, ih []]
    simp [interleaveSegs]
  | case2 pw d1 d2 c m1 m2 rest hnA hB ih =>
    intro acc
    have e1 : reSplitAux pw acc (d1 :: d2 :: c :: m1 :: m2 :: rest) =
        (⟨acc.reverse⟩ : String) :: (⟨[d1, ':', c, m1]⟩ : String) ::
          reSplitAux true [] (m2 :: rest) := by
      simp only [reSplitAux]
      rw [if_neg hnA, if_pos hB]
    have e2 : contactSegs pw (d1 :: d2 :: c :: m1 :: m2 :: rest) =
        ([], ((⟨[d1, ':', c, m1]⟩ : String),
          (⟨(contactSegs true (m2 :: rest)).1⟩ : String)) ::
            (contactSegs true (m2 :: rest)).2) := by
      simp only [contactSegs]
      rw [if_neg hnA, if_pos hB]
    rw [e1, e2, ih []]
    simp [interleaveSegs]
  | case3 pw d1 d2 c m1 m2 rest hnA hnB ih =>
    intro acc
    have e1 : reSplitAux pw acc (d1 :: d2 :: c :: m1 :: m2 :: rest) =
        reSplitAux (isWordChar d1) (d1 :: acc) (d2 :: c :: m1 :: m2 :: rest) := by
      simp only [reSplitAux]
      rw [if_neg hnA, if_neg hnB]
    have e2 : contactSegs pw (d1 :: d2 :: c :: m1 :: m2 :: rest) =
        (d1 :: (contactSegs (isWordChar d1) (d2 :: c :: m1 :: m2 :: rest)).1,
          (contactSegs (isWordChar d1) (d2 :: c :: m1 :: m2 :: rest)).2) := by
      simp only [contactSegs]
      rw [if_neg hnA, if_neg hnB]
    rw [e1, e2, ih (d1 :: acc)]
    simp
  | case4 pw d1 d2 c m1 hA =>
    intro acc
    have e1 : reSplitAux pw acc [d1, d2, c, m1] =
        [(⟨acc.reverse⟩ : String), (⟨[d1, ':', c, m1]⟩ : String), ""] := by
      simp only [reSplitAux]
      rw [if_pos hA]
    have e2 : contactSegs pw [d1, d2, c, m1] =
        ([], [((⟨[d1, ':', c, m1]⟩ : String), "")]) := by
      simp only [contactSegs]
      rw [if_pos hA]
    rw [e1, e2]
    simp [interleaveSegs]
  | case5 pw d1 d2 c m1 hnA ih =>
    intro acc
    have e1 : reSplitAux pw acc [d1, d2, c, m1] =
        reSplitAux (isWordChar d1) (d1 :: acc) [d2, c, m1] := by
      simp only [reSplitAux]
      rw [if_neg hnA]
    have e2 : contactSegs pw [d1, d2, c, m1] =
        (d1 :: (contactSegs (isWordChar d1) [d2, c, m1]).1,
          (contactSegs (isWordChar d1) [d2, c, m1]).2) := by
      simp only [contactSegs]
      rw [if_neg hnA]
    rw [e1, e2, ih (d1 :: acc)]
    simp
  | case6 pw d1 rest hs1 hs2 ih =>
    intro acc
    rcases rest with _ | ⟨x, _ | ⟨y, _ | ⟨z, zs⟩⟩⟩
    · rw [show reSplitAux pw acc [d1] = reSplitAux (isWordChar d1) (d1 :: acc) [] from rfl,
        show contactSegs pw [d1] =
          (d1 :: (contactSegs (isWordChar d1) ([] : List Char)).1,
            (contactSegs (isWordChar d1) ([] : List Char)).2) from rfl,
        ih (d1 :: acc)]
      simp
    · rw [show reSplitAux pw acc [d1, x] = reSplitAux (isWordChar d1) (d1 :: acc) [x] from rfl,
        show contactSegs pw [d1, x] =
          (d1 :: (contactSegs (isWordChar d1) [x]).1,
            (contactSegs (isWordChar d1) [x]).2) from rfl,
        ih (d1 :: acc)]
      simp
    · rw [show reSplitAux pw acc [d1, x, y] =
          reSplitAux (isWordChar d1) (d1 :: acc) [x, y] from rfl,
        show contactSegs pw [d1, x, y] =
          (d1 :: (contactSegs (isWordChar d1) [x, y]).1,
            (contactSegs (isWordChar d1) [x, y]).2) from rfl,
        ih (d1 :: acc)]
      simp
    · exfalso
      cases zs with
      | nil => exact hs2 x y z rfl
      | cons w ws => exact hs1 x y z w ws rfl
  | case7 pw =>
    intro acc
    simp [reSplitAux, contactSegs, interleaveSegs]


/-- With no token found, the whole text is the single segment. -/
theorem contactSegs_no_token : ∀ (pw : Bool) (cs : List Char),
    (contactSegs pw cs).2 = [] → (contactSegs pw cs).1 = cs := by
  intro pw cs
  induction pw, cs using contactSegs.induct with
  | case1 pw d1 d2 c m1 m2 rest hA ih =>
    intro h2
    have e2 : contactSegs pw (d1 :: d2 :: c :: m1 :: m2 :: rest) =
        ([], ((⟨[d1, d2, ':', m1, m2]⟩ : String),
          (⟨(contactSegs true rest).1⟩ : String)) :: (contactSegs true rest).2) := by
      simp only [contactSegs]
      rw [if_pos hA]
    rw [e2] at h2
    exact absurd h2 (by simp)
  | case2 pw d1 d2 c m1 m2 rest hnA hB ih =>
    intro h2
    have e2 : contactSegs pw (d1 :: d2 :: c :: m1 :: m2 :: rest) =
        ([], ((⟨[d1, ':', c, m1]⟩ : String),
          (⟨(contactSegs true (m2 :: rest)).1⟩ : String)) ::
            (contactSegs true (m2 :: rest)).2) := by
      simp only [contactSegs]
      rw [if_neg hnA, if_pos hB]
    rw [e2] at h2
    exact absurd h2 (by simp)
  | case3 pw d1 d2 c m1 m2 rest hnA hnB ih =>
    intro h2
    have e2 : contactSegs pw (d1 :: d2 :: c :: m1 :: m2 :: rest) =
        (d1 :: (contactSegs (isWordChar d1) (d2 :: c :: m1 :: m2 :: rest)).1,
          (contactSegs (isWordChar d1) (d2 :: c :: m1 :: m2 :: rest)).2) := by
      simp only [contactSegs]
      rw [if_neg hnA, if_neg hnB]
    rw [e2] at h2 ⊢
    exact congrArg (fun l => d1 :: l) (ih h2)
  | case4 pw d1 d2 c m1 hA =>
    intro h2
    have e2 : contactSegs pw [d1, d2, c, m1] =
        ([], [((⟨[d1, ':', c, m1]⟩ : String), "")]) := by
      simp only [contactSegs]
      rw [if_pos hA]
    rw [e2] at h2
    exact absurd h2 (by simp)
  | case5 pw d1 d2 c m1 hnA ih =>
    intro h2
    have e2 : contactSegs pw [d1, d2, c, m1] =
        (d1 :: (contactSegs (isWordChar d1) [d2, c, m1]).1,
          (contactSegs (isWordChar d1) [d2, c, m1]).2) := by
      simp only [contactSegs]
      rw [if_neg hnA]
    rw [e2] at h2 ⊢
    exact congrArg (fun l => d1 :: l) (ih h2)
  | case6 pw d1 rest hs1 hs2 ih =>
    intro h2
    rcases rest with _ | ⟨x, _ | ⟨y, _ | ⟨z, zs⟩⟩⟩
    · rfl
    · have e2 : contactSegs pw [d1, x] =
          (d1 :: (contactSegs (isWordChar d1) [x]).1,
            (contactSegs (isWordChar d1) [x]).2) := rfl
      rw [e2] at h2 ⊢
      exact congrArg (fun l => d1 :: l) (ih h2)
    · have e2 : contactSegs pw [d1, x, y] =
          (d1 :: (contactSegs (isWordChar d1) [x, y]).1,
            (contactSegs (isWordChar d1) [x, y]).2) := rfl
      rw [e2] at h2 ⊢
      exact congrArg (fun l => d1 :: l) (ih h2)
    · exfalso
      cases zs with
      | nil => exact hs2 x y z rfl
      | cons w ws => exact hs1 x y z w ws rfl
  | case7 pw =>
    intro _
    rfl

/-- Every captured token fully matches the token pattern. -/
theorem contactSegs_tokens_full : ∀ (pw : Bool) (cs : List Char),
    ∀ p ∈ (contactSegs pw cs).2, isFullToken p.1 = true := by
  intro pw cs
  induction pw, cs using contactSegs.induct with
  | case1 pw d1 d2 c m1 m2 rest hA ih =>
    intro p hp
    have e2 : contactSegs pw (d1 :: d2 :: c :: m1 :: m2 :: rest) =
        ([], ((⟨[d1, d2, ':', m1, m2]⟩ : String),
          (⟨(contactSegs true rest).1⟩ : String)) :: (contactSegs true rest).2) := by
      simp only [contactSegs]
      rw [if_pos hA]
    rw [e2] at hp
    simp only [List.mem_cons] at hp
    rcases hp with rfl | hp
    · simp only [Bool.and_eq_true] at hA
      show (d1.isDigit && d2.isDigit && (':' == ':') && m1.isDigit && m2.isDigit) = true
      simp [hA.1.1.1.1.1.2, hA.1.1.1.1.2, hA.1.1.2, hA.1.2]
    · exact ih p hp
  | case2 pw d1 d2 c m1 m2 rest hnA hB ih =>
    intro p hp
    have e2 : contactSegs pw (d1 :: d2 :: c :: m1 :: m2 :: rest) =
        ([], ((⟨[d1, ':', c, m1]⟩ : String),
          (⟨(contactSegs true (m2 :: rest)).1⟩ : String)) ::
            (contactSegs true (m2 :: rest)).2) := by
      simp only [contactSegs]
      rw [if_neg hnA, if_pos hB]
    rw [e2] at hp
    simp only [List.mem_cons] at hp
    rcases hp with rfl | hp
    · simp only [Bool.and_eq_true] at hB
      show (d1.isDigit && (':' == ':') && c.isDigit && m1.isDigit) = true
      simp [hB.1.1.1.1.2, hB.1.1.2, hB.1.2]
    · exact ih p hp
  | case3 pw d1 d2 c m1 m2 rest hnA hnB ih =>
    intro p hp
    have e2 : contactSegs pw (d1 :: d2 :: c :: m1 :: m2 :: rest) =
        (d1 :: (contactSegs (isWordChar d1) (d2 :: c :: m1 :: m2 :: rest)).1,
          (contactSegs (isWordChar d1) (d2 :: c :: m1 :: m2 :: rest)).2) := by
      simp only [contactSegs]
      rw [if_neg hnA, if_neg hnB]
    rw [e2] at hp
    exact ih p hp
  | case4 pw d1 d2 c m1 hA =>
    intro p hp
    have e2 : contactSegs pw [d1, d2, c, m1] =
        ([], [((⟨[d1, ':', c, m1]⟩ : String), "")]) := by
      simp only [contactSegs]
      rw [if_pos hA]
    rw [e2] at hp
    simp only [List.mem_singleton] at hp
    subst hp
    simp only [Bool.and_eq_true] at hA
    show (d1.isDigit && (':' == ':') && c.isDigit && m1.isDigit) = true
    simp [hA.1.1.1.2, hA.1.2, hA.2]
  | case5 pw d1 d2 c m1 hnA ih =>
    intro p hp
    have e2 : contactSegs pw [d1, d2, c, m1] =
        (d1 :: (contactSegs (isWordChar d1) [d2, c, m1]).1,
          (contactSegs (isWordChar d1) [d2, c, m1]).2) := by
      simp only [contactSegs]
      rw [if_neg hnA]
    rw [e2] at hp
    exact ih p hp
  | case6 pw d1 rest hs1 hs2 ih =>
    intro p hp
    rcases rest with _ | ⟨x, _ | ⟨y, _ | ⟨z, zs⟩⟩⟩
    · exact absurd hp (by simp [contactSegs])
    · have e2 : contactSegs pw [d1, x] =
          (d1 :: (contactSegs (isWordChar d1) [x]).1,
            (contactSegs (isWordChar d1) [x]).2) := rfl
      rw [e2] at hp
      exact ih p hp
    · have e2 : contactSegs pw [d1, x, y] =
          (d1 :: (contactSegs (isWordChar d1) [x, y]).1,
            (contactSegs (isWordChar d1) [x, y]).2) := rfl
      rw [e2] at hp
      exact ih p hp
    · exfalso
      cases zs with
      | nil => exact hs2 x y z rfl
      | cons w ws => exact hs1 x y z w ws rfl
  | case7 pw =>
    intro p hp
    exact absurd hp (by simp [contactSegs])

/-- When a token exists, the leading text segment is empty only if the
boundary state says the previous character is not a word character, and its
last character (if any) is never a word character. -/
theorem contactSegs_fst_props : ∀ (pw : Bool) (cs : List Char),
    (contactSegs pw cs).2 ≠ [] →
      (((contactSegs pw cs).1 = [] → pw = false) ∧
        (∀ e, (contactSegs pw cs).1.getLast? = some e → isWordChar e = false)) := by
  intro pw cs
  induction pw, cs using contactSegs.induct with
  | case1 pw d1 d2 c m1 m2 rest hA ih =>
    intro _
    have e2 : contactSegs pw (d1 :: d2 :: c :: m1 :: m2 :: rest) =
        ([], ((⟨[d1, d2, ':', m1, m2]⟩ : String),
          (⟨(contactSegs true rest).1⟩ : String)) :: (contactSegs true rest).2) := by
      simp only [contactSegs]
      rw [if_pos hA]
    rw [e2]
    refine ⟨fun _ => ?_, fun e he => by exact absurd he (by simp)⟩
    simp only [Bool.and_eq_true] at hA
    have := hA.1.1.1.1.1.1
    simpa using this
  | case2 pw d1 d2 c m1 m2 rest hnA hB ih =>
    intro _
    have e2 : contactSegs pw (d1 :: d2 :: c :: m1 :: m2 :: rest) =
        ([], ((⟨[d1, ':', c, m1]⟩ : String),
          (⟨(contactSegs true (m2 :: rest)).1⟩ : String)) ::
            (contactSegs true (m2 :: rest)).2) := by
      simp only [contactSegs]
      rw [if_neg hnA, if_pos hB]
    rw [e2]
    refine ⟨fun _ => ?_, fun e he => by exact absurd he (by simp)⟩
    simp only [Bool.and_eq_true] at hB
    have := hB.1.1.1.1.1
    simpa using this
  | case3 pw d1 d2 c m1 m2 rest hnA hnB ih =>
    intro hne
    have e2 : contactSegs pw (d1 :: d2 :: c :: m1 :: m2 :: rest) =
        (d1 :: (contactSegs (isWordChar d1) (d2 :: c :: m1 :: m2 :: rest)).1,
          (contactSegs (isWordChar d1) (d2 :: c :: m1 :: m2 :: rest)).2) := by
      simp only [contactSegs]
      rw [if_neg hnA, if_neg hnB]
    rw [e2] at hne ⊢
    refine ⟨fun hcons => absurd hcons (by simp), fun e he => ?_⟩
    have ihx := ih hne
    cases hfst : (contactSegs (isWordChar d1) (d2 :: c :: m1 :: m2 :: rest)).1 with
    | nil =>
      rw [hfst] at he
      obtain rfl : d1 = e := by simpa using he
      exact ihx.1 hfst
    | cons x xs =>
      rw [hfst] at he
      rw [List.getLast?_cons_cons] at he
      exact ihx.2 e (by rw [hfst]; exact he)
  | case4 pw d1 d2 c m1 hA =>
    intro _
    have e2 : contactSegs pw [d1, d2, c, m1] =
        ([], [((⟨[d1, ':', c, m1]⟩ : String), "")]) := by
      simp only [contactSegs]
      rw [if_pos hA]
    rw [e2]
    refine ⟨fun _ => ?_, fun e he => by exact absurd he (by simp)⟩
    simp only [Bool.and_eq_true] at hA
    have := hA.1.1.1.1
    simpa using this
  | case5 pw d1 d2 c m1 hnA ih =>
    intro hne
    have e2 : contactSegs pw [d1, d2, c, m1] =
        (d1 :: (contactSegs (isWordChar d1) [d2, c, m1]).1,
          (contactSegs (isWordChar d1) [d2, c, m1]).2) := by
      simp only [contactSegs]
      rw [if_neg hnA]
    rw [e2] at hne ⊢
    refine ⟨fun hcons => absurd hcons (by simp), fun e he => ?_⟩
    have ihx := ih hne
    cases hfst : (contactSegs (isWordChar d1) [d2, c, m1]).1 with
    | nil =>
      rw [hfst] at he
      obtain rfl : d1 = e := by simpa using he
      exact ihx.1 hfst
    | cons x xs =>
      rw [hfst] at he
      rw [List.getLast?_cons_cons] at he
      exact ihx.2 e (by rw [hfst]; exact he)
  | case6 pw d1 rest hs1 hs2 ih =>
    intro hne
    rcases rest with _ | ⟨x, _ | ⟨y, _ | ⟨z, zs⟩⟩⟩
    · exact absurd rfl hne
    · have e2 : contactSegs pw [d1, x] =
          (d1 :: (contactSegs (isWordChar d1) [x]).1,
            (contactSegs (isWordChar d1) [x]).2) := rfl
      rw [e2] at hne ⊢
      refine ⟨fun hcons => absurd hcons (by simp), fun e he => ?_⟩
      have ihx := ih hne
      cases hfst : (contactSegs (isWordChar d1) [x]).1 with
      | nil =>
        rw [hfst] at he
        obtain rfl : d1 = e := by simpa using he
        exact ihx.1 hfst
      | cons u us =>
        rw [hfst] at he
        rw [List.getLast?_cons_cons] at he
        exact ihx.2 e (by rw [hfst]; exact he)
    · have e2 : contactSegs pw [d1, x, y] =
          (d1 :: (contactSegs (isWordChar d1) [x, y]).1,
            (contactSegs (isWordChar d1) [x, y]).2) := rfl
      rw [e2] at hne ⊢
      refine ⟨fun hcons => absurd hcons (by simp), fun e he => ?_⟩
      have ihx := ih hne
      cases hfst : (contactSegs (isWordChar d1) [x, y]).1 with
      | nil =>
        rw [hfst] at he
        obtain rfl : d1 = e := by simpa using he
        exact ihx.1 hfst
      | cons u us =>
        rw [hfst] at he
        rw [List.getLast?_cons_cons] at he
        exact ihx.2 e (by rw [hfst]; exact he)
    · exfalso
      cases zs with
      | nil => exact hs2 x y z rfl
      | cons w ws => exact hs1 x y z w ws rfl
  | case7 pw =>
    intro hne
    exact absurd rfl hne


theorem contactSegs_fst_not_token {cs : List Char}
    (hne : (contactSegs false cs).2 ≠ []) :
    isFullToken ⟨(contactSegs false cs).1⟩ = false := by
  cases hft : isFullToken ⟨(contactSegs false cs).1⟩ with
  | false => rfl
  | true =>
    exfalso
    obtain ⟨e, he, hdig⟩ := fullToken_getLast hft
    have hw := (contactSegs_fst_props false cs hne).2 e he
    rw [isWordChar_of_isDigit hdig] at hw
    exact Bool.noConfusion hw

/-- Counterexample to claim C4: an input with surrounding whitespace, no time
token and at most 30 characters is not returned unchanged — the code strips
it first. -/
theorem contact_trim_counterexample :
    format_contact_text " abc" = "abc" ∧
    " abc" ≠ "abc" ∧
    hasTimeToken " abc" = false ∧
    (" abc" : String).length ≤ 30 :=
  ⟨rfl, by decide, rfl, by decide⟩

/-- Claim C4 as amended: all rules apply to the whitespace-trimmed input (and
each message is trimmed, each line right-trimmed).  Empty trimmed input yields
the empty string; trimmed input without a time token is returned unchanged up
to 30 characters and truncated to 30 plus the ellipsis glyph beyond; trimmed
input with time tokens renders one line per token in order, each line
`{time} {message}` under the same 30-character cap per message. -/
theorem contact_text_amended :
    ∀ raw : String,
      (pyStrip raw = "" → format_contact_text raw = "") ∧
      (pyStrip raw ≠ "" → hasTimeToken (pyStrip raw) = false →
        format_contact_text raw =
          (if (pyStrip raw).length > 30
            then (⟨(pyStrip raw).data.take 30⟩ : String) ++ ELLIPSIS
            else pyStrip raw)) ∧
      (pyStrip raw ≠ "" → hasTimeToken (pyStrip raw) = true →
        format_contact_text raw =
          String.intercalate "\n"
            ((contactSegs false (pyStrip raw).data).2.map lineOfSeg)) := by
  intro raw
  refine ⟨?_, ?_, ?_⟩
  · intro h
    simp [format_contact_text, h]
  · intro hne htok
    have hb : (pyStrip raw == "") = false := beq_eq_false_iff_ne.mpr hne
    have hsegs : (contactSegs false (pyStrip raw).data).2 = [] := by
      unfold hasTimeToken at htok
      simpa using htok
    have hparts : reSplitAux false [] (pyStrip raw).data =
        [(⟨(contactSegs false (pyStrip raw).data).1⟩ : String)] := by
      rw [reSplit_eq_segs false (pyStrip raw).data [], hsegs]
      simp [interleaveSegs]
    simp only [format_contact_text]
    rw [hb, if_neg Bool.false_ne_true, hparts]
    rw [if_pos (by simp)]
    rfl
  · intro hne htok
    have hb : (pyStrip raw == "") = false := beq_eq_false_iff_ne.mpr hne
    have hsegs : (contactSegs false (pyStrip raw).data).2 ≠ [] := by
      unfold hasTimeToken at htok
      simpa using htok
    have hbridge := reSplit_eq_segs false (pyStrip raw).data []
    simp only [List.reverse_nil, List.nil_append] at hbridge
    have hloop : ((reSplitAux false [] (pyStrip raw).data).length == 1) = false := by
      apply beq_eq_false_iff_ne.mpr
      rw [hbridge]
      have hk : 0 < (contactSegs false (pyStrip raw).data).2.length :=
        List.length_pos.mpr hsegs
      simp only [List.length_cons, interleaveSegs_length]
      omega
    simp only [format_contact_text]
    rw [hb, if_neg Bool.false_ne_true, hloop, if_neg Bool.false_ne_true, hbridge]
    rw [renderLines_skip _ _ (contactSegs_fst_not_token hsegs)]
    rw [renderLines_interleave _ (contactSegs_tokens_full false (pyStrip raw).data)]
    congr 1
    apply List.filter_eq_self.mpr
    intro a ha
    rw [List.mem_map] at ha
    obtain ⟨p, hp, rfl⟩ := ha
    exact bne_iff_ne.mpr
      (lineOfSeg_ne_empty (contactSegs_tokens_full false (pyStrip raw).data p hp))

/-- Witness for C4: the amended theorem applied to a two-token note. -/
theorem contact_text_amended_witness :
    format_contact_text "10:35 xxx 11:10 yyy" =
      String.intercalate "\n"
        ((contactSegs false (pyStrip "10:35 xxx 11:10 yyy").data).2.map lineOfSeg) :=
  (contact_text_amended "10:35 xxx 11:10 yyy").2.2 (by decide) rfl

/-- Claim C9 (implicit behavior): any segment that is not a full time token —
in particular all text before the first token — contributes nothing to the
rendered contact note, and a token followed by an empty message yields a line
holding the time alone. -/
theorem contact_prefix_discarded :
    (∀ (p : String) (rest : List String), isFullToken p = false →
      renderLines (p :: rest) = renderLines rest) ∧
    format_contact_text "hello 10:35 msg" = "10:35 msg" ∧
    format_contact_text "a 10:35" = "10:35" :=
  ⟨renderLines_skip, rfl, rfl⟩

/-- Witness for C9: the discarded-prefix rule at a concrete split list. -/
theorem contact_prefix_discarded_witness :
    renderLines ["hello ", "10:35", " msg"] = renderLines ["10:35", " msg"] :=
  contact_prefix_discarded.1 "hello " ["10:35", " msg"] rfl

theorem make_sheet_slack (nm date : String) (daily r : Row) :
    (make_sheet nm date daily r).slack = format_contact_text (raw_contact daily r) := by
  dsimp only [make_sheet]

theorem raw_contact_eq_choice (db : List (String × Row)) (r : Row) :
    raw_contact (dbGet db (normalize_date (rget r "年月日"))) r = contact_choice db r := by
  unfold raw_contact contact_choice
  rfl

theorem process_row_shape (names : List String) (db : List (String × Row)) (r : Row)
    (fuel : Nat) :
    process_row names db r fuel = some (names, none) ∨
    process_row names db r fuel =
      match resolve_title names
          (sheet_title_base (normalize_date (rget r "年月日")) r) fuel with
      | none => none
      | some nm =>
        some (names ++ [nm], some (make_sheet nm (normalize_date (rget r "年月日"))
          (dbGet db (normalize_date (rget r "年月日"))) r)) := by
  by_cases h1 : (pyStrip (rget r "出欠等") == ABSENT_SKIP_VALUE) = true
  · left; simp [process_row, h1]
  · have h1f : (pyStrip (rget r "出欠等") == ABSENT_SKIP_VALUE) = false := by simpa using h1
    by_cases h2 : (pyStrip (rget r "出欠等") != ATTEND_VALUE) = true
    · left; simp [process_row, h1f, h2]
    · have h2f : (pyStrip (rget r "出欠等") != ATTEND_VALUE) = false := by simpa using h2
      by_cases h3 : (normalize_date (rget r "年月日") == "") = true
      · left; simp [process_row, h1f, h2f, h3]
      · have h3f : (normalize_date (rget r "年月日") == "") = false := by simpa using h3
        right; simp [process_row, h1f, h2f, h3f]

theorem process_row_some_sheet
    {names names2 : List String} {db : List (String × Row)} {r : Row} {fuel : Nat}
    {s : SheetData}
    (h : process_row names db r fuel = some (names2, some s)) :
    ∃ nm, s = make_sheet nm (normalize_date (rget r "年月日"))
      (dbGet db (normalize_date (rget r "年月日"))) r := by
  rcases process_row_shape names db r fuel with he | he
  · rw [he] at h
    simp at h
  · rw [he] at h
    split at h
    next => exact Option.noConfusion h
    next nm hres =>
      have hpair := Option.some_inj.mp h
      have hs : some (make_sheet nm (normalize_date (rget r "年月日"))
          (dbGet db (normalize_date (rget r "年月日"))) r) = some s :=
        congrArg Prod.snd hpair
      exact ⟨nm, (Option.some_inj.mp hs).symm⟩

/-- Claim C7 as amended: the general-remarks / contact fallback field is
written through contact-note segmentation, whose cap is 30 characters per
message — untimed trimmed values over 30 characters are cut at 30 and
suffixed with the ellipsis glyph, values of at most 30 pass unchanged, and no
1500-character rule exists anywhere on this path. -/
theorem contact_field_30_char_cap :
    (∀ (names names2 : List String) (db : List (String × Row)) (r : Row) (fuel : Nat)
        (s : SheetData),
      process_row names db r fuel = some (names2, some s) →
      s.slack = format_contact_text (contact_choice db r)) ∧
    (∀ t : String, pyStrip t ≠ "" → hasTimeToken (pyStrip t) = false →
      (pyStrip t).length > 30 →
      format_contact_text t = (⟨(pyStrip t).data.take 30⟩ : String) ++ ELLIPSIS) ∧
    (∀ t : String, pyStrip t ≠ "" → hasTimeToken (pyStrip t) = false →
      (pyStrip t).length ≤ 30 →
      format_contact_text t = pyStrip t) := by
  refine ⟨?_, ?_, ?_⟩
  · intro names names2 db r fuel s h
    obtain ⟨nm, hs⟩ := process_row_some_sheet h
    rw [hs, make_sheet_slack, raw_contact_eq_choice]
  · intro t hne htok hgt
    have hb : (pyStrip t == "") = false := beq_eq_false_iff_ne.mpr hne
    have hsegs : (contactSegs false (pyStrip t).data).2 = [] := by
      unfold hasTimeToken at htok
      simpa using htok
    have hparts : reSplitAux false [] (pyStrip t).data =
        [(⟨(contactSegs false (pyStrip t).data).1⟩ : String)] := by
      rw [reSplit_eq_segs false (pyStrip t).data [], hsegs]
      simp [interleaveSegs]
    simp only [format_contact_text]
    rw [hb, if_neg Bool.false_ne_true, hparts, if_pos (by simp)]
    unfold cap30
    rw [if_pos hgt]
  · intro t hne htok hle
    have hb : (pyStrip t == "") = false := beq_eq_false_iff_ne.mpr hne
    have hsegs : (contactSegs false (pyStrip t).data).2 = [] := by
      unfold hasTimeToken at htok
      simpa using htok
    have hparts : reSplitAux false [] (pyStrip t).data =
        [(⟨(contactSegs false (pyStrip t).data).1⟩ : String)] := by
      rw [reSplit_eq_segs false (pyStrip t).data [], hsegs]
      simp [interleaveSegs]
    simp only [format_contact_text]
    rw [hb, if_neg Bool.false_ne_true, hparts, if_pos (by simp)]
    unfold cap30
    rw [if_neg (by omega)]

/-- Witness for C7: the amended theorem applied to the 40-character remark row
and to the 40-character value itself. -/
theorem contact_field_30_char_cap_witness :
    (make_sheet "20250110_山田" "2025/01/10" [] c7Row).slack =
      format_contact_text (contact_choice [] c7Row) ∧
    format_contact_text fortyA = (⟨fortyA.data.take 30⟩ : String) ++ ELLIPSIS := by
  constructor
  · exact contact_field_30_char_cap.1 ["Format"] ["Format", "20250110_山田"] [] c7Row 1 _ rfl
  · exact contact_field_30_char_cap.2.1 fortyA (by decide) rfl (by decide)

end ServiceRecordTool
